import Mathlib

/-!
# Verification of the flynn-test VM runner (instance lifecycle, privilege bridge)

Shallow embedding of the Go sources `runner/instance.go`, `runner/runner.go`
and the QEMU-backend variant of the instance file.  Side effects (temp-dir
creation, chmod/chown, external tool invocation, process spawning, file
removal, tap release) are modelled by explicit state passing through a `Sys`
record that carries fault-injection queues and an event trace.  The external
network allocator (`TapManager` / `Tap`, not part of the given sources; the
spec describes it only at its interface: allocate / write-config / release)
is modelled as an abstract `Tap` value whose `Close` is recorded as an event.

Pointer-typed Go values that may be nil (`*exec.Cmd`, `*os.Process`, `*Tap`)
are modelled as `Option`; dereferencing `none` corresponds to a Go nil-pointer
panic and is made explicit in the result type where the sources can reach it
(`Kill`, `Wait`).

The embedded Go `uml` struct holds `*UMLConfig` (a pointer shared with the
caller), so config mutations made by the instance are mutations of the
caller's config; the embedding passes the config record alongside the
instance and returns the updated record, which models exactly that sharing.
-/

namespace FlynnTest

/-! ## System model: events and fault-injection oracle -/

/-- External tool invocation result: optional non-zero-exit error message and
the tool's combined stdout+stderr output. -/
structure ToolRes where
  exitErr : Option String
  output : String
deriving DecidableEq

/-- Observable side effects of the runner, in order of occurrence. -/
inductive Ev where
  | tempDirMade (p : String)
  | tempDirFail
  | chmodCall (p : String)
  | createCall (p : String)
  | ifaceWrite
  | chownCall (p : String)
  | removeAll (p : String)
  | tapClose
  | runTool (argv : List String)
  | spawn (path : String) (argv : List String) (env : List String)
  | killProc
  | waitProc
deriving DecidableEq

/-- World state: fault-injection queues (`[]` means "succeed from now on";
a queue entry gives the outcome of the next call of that operation), a
counter generating fresh temp-dir names, the HOME environment value, and the
trace of events performed so far. -/
structure Sys where
  tmpCounter : Nat
  tempDirOK : List Bool
  chmodOK : Bool
  createOK : Bool
  ifaceOK : Bool
  chownOK : List Bool
  toolQ : List ToolRes
  spawnOK : Bool
  home : String
  events : List Ev
deriving DecidableEq

/-- Fresh temp-dir name produced by the `n`-th `ioutil.TempDir("", "")` call. -/
def tmpName (n : Nat) : String := "/tmp/flynn" ++ Nat.repr n

def Sys.log (s : Sys) (e : Ev) : Sys := {s with events := s.events ++ [e]}

/-- `ioutil.TempDir("", "")`: creates (and returns the path of) a fresh
directory, or fails according to the fault queue. -/
def Sys.tempDir (s : Sys) : Except String String × Sys :=
  let ok := s.tempDirOK.headD true
  let s' := {s with tempDirOK := s.tempDirOK.tail}
  if ok then
    let p := tmpName s'.tmpCounter
    (Except.ok p, Sys.log {s' with tmpCounter := s'.tmpCounter + 1} (Ev.tempDirMade p))
  else
    (Except.error "TempDir: no space left on device", Sys.log s' Ev.tempDirFail)

/-- `os.Chown(p, uid, gid)`: succeeds or fails according to the fault queue. -/
def Sys.chown (s : Sys) (p : String) : Option String × Sys :=
  let ok := s.chownOK.headD true
  let s' := Sys.log {s with chownOK := s.chownOK.tail} (Ev.chownCall p)
  if ok then (none, s') else (some ("chown " ++ p ++ ": operation not permitted"), s')

/-- `exec.Command(...).Run()` of an external tool; the oracle supplies the
exit error and the combined output the tool would have produced. -/
def Sys.runTool (s : Sys) (argv : List String) : ToolRes × Sys :=
  let r := s.toolQ.headD ⟨none, ""⟩
  (r, Sys.log {s with toolQ := s.toolQ.tail} (Ev.runTool argv))

/-- `os.RemoveAll p` (its error is discarded by all call sites in the source). -/
def Sys.removeAll (s : Sys) (p : String) : Sys := Sys.log s (Ev.removeAll p)

/-- A started OS process (`*os.Process`). -/
structure SpawnedProc where
  alive : Bool
deriving DecidableEq

/-- `exec.Cmd.Start()` of the re-exec bridge process (`execReq.start`'s
`cmd.Start()`): records the spawn request and either hands back a process
handle or fails. -/
def Sys.spawn (s : Sys) (path : String) (argv env : List String) :
    Except String SpawnedProc × Sys :=
  let s' := Sys.log s (Ev.spawn path argv env)
  if s.spawnOK then (Except.ok {alive := true}, s')
  else (Except.error "fork/exec: resource temporarily unavailable", s')

/-! ## Data model (from `runner/instance.go`) -/

/-- The network endpoint handed out by the external tap allocator. -/
structure Tap where
  Name : String
  RemoteIP : String
deriving DecidableEq

/-- `exec.Cmd`: the `Process` field is nil until `Start` succeeds. -/
structure Cmd where
  Process : Option SpawnedProc
deriving DecidableEq

structure UMLDrive where
  FS : String
  COW : String
  TempCOW : Bool
deriving DecidableEq

/-- `UMLConfig`. `Out` is the output sink (`nil` ⇒ a log file is created);
`hostFS` is the unexported scratch-dir field set by `writeInterfaceConfig`. -/
structure UMLConfig where
  Path : String
  User : Int
  Group : Int
  Memory : String
  Drives : List UMLDrive
  Args : List String
  Out : Option String
  hostFS : String
deriving DecidableEq

/-- The `uml` instance struct.  `tap` and `cmd` are nilable pointers. -/
structure uml where
  ID : String
  tap : Option Tap
  cmd : Option Cmd
  tempFiles : List String
deriving DecidableEq

/-- The tap interface name, as read by `u.tap.Name` (instances built by a
successful `NewInstance` always carry a tap). -/
def uml.tapName (u : uml) : String :=
  match u.tap with
  | some t => t.Name
  | none => ""

/-! ## Instance lifecycle -/

/-- `uml.cleanup`: remove every registered temp path, call `u.tap.Close()`,
and reset the temp list to nil. -/
def uml.cleanup (u : uml) (s : Sys) : uml × Sys :=
  let s := u.tempFiles.foldl Sys.removeAll s
  let s := Sys.log s Ev.tapClose
  ({u with tempFiles := []}, s)

/-- Outcome of a `Kill`/`Wait` call: a Go panic (nil-pointer dereference) or
a normal return carrying the optional error. -/
inductive CallRes where
  | panicked
  | ok (err : Option String)
deriving DecidableEq

/-- `(*os.Process).Kill()`: errors if the process already finished. -/
def procKill (p : SpawnedProc) : Option String :=
  if p.alive then none else some "os: process already finished"

/-- `uml.Kill`: `defer u.cleanup(); return u.cmd.Process.Kill()`.
Evaluating `u.cmd.Process` with `u.cmd == nil` (or calling `Kill` on a nil
`Process`) is a nil-pointer dereference: the deferred `cleanup` still runs
during unwinding, then the panic propagates. -/
def uml.Kill (u : uml) (s : Sys) : CallRes × uml × Sys :=
  match u.cmd with
  | none =>
    let (u', s') := uml.cleanup u s
    (CallRes.panicked, u', s')
  | some c =>
    match c.Process with
    | none =>
      let (u', s') := uml.cleanup u s
      (CallRes.panicked, u', s')
    | some p =>
      let s := Sys.log s Ev.killProc
      let (u', s') := uml.cleanup u s
      (CallRes.ok (procKill p), u', s')

/-- `uml.Wait`: `defer u.cleanup(); return u.cmd.Wait()`.  A nil `u.cmd`
panics; otherwise the process is waited for (and is no longer alive). -/
def uml.Wait (u : uml) (s : Sys) : CallRes × uml × Sys :=
  match u.cmd with
  | none =>
    let (u', s') := uml.cleanup u s
    (CallRes.panicked, u', s')
  | some c =>
    let s := Sys.log s Ev.waitProc
    let u := {u with cmd := some {Process := c.Process.map (fun _ => {alive := false})}}
    let (u', s') := uml.cleanup u s
    (CallRes.ok none, u', s')

/-! ## Instance manager (`UMLManager.NewInstance`) -/

structure UMLManager where
  nextID : Nat
deriving DecidableEq

/-- Second half of `NewInstance`: `inst.tap, err = u.taps.NewTap(...)`;
`return inst, err`.  On allocator failure the (tap-less) instance is still
returned, together with the error. -/
def newTapAssign (inst : uml) (tapRes : Except String Tap) :
    Option uml × Option String :=
  match tapRes with
  | Except.ok t => (some {inst with tap := some t}, none)
  | Except.error e => (some inst, some e)

/-- `if c.Path == "" { c.Path = "linux" }`. -/
def defaultPath (p : String) : String := if p = "" then "linux" else p

/-- `UMLManager.NewInstance`: allocates the next id, defaults `Path` and
`Out` (creating a per-instance log file; `logOK` is the outcome of that
`os.Create`), then allocates the tap (`tapRes` is the allocator's answer).
Returns the Go pair `(Instance, error)` plus the updated config and manager. -/
def UMLManager.NewInstance (m : UMLManager) (c : UMLConfig)
    (logOK : Bool) (tapRes : Except String Tap) :
    (Option uml × Option String) × UMLConfig × UMLManager :=
  let id := m.nextID
  let m := {m with nextID := m.nextID + 1}
  let inst : uml := {ID := "flynn" ++ Nat.repr id, tap := none, cmd := none, tempFiles := []}
  let c := {c with Path := defaultPath c.Path}
  match c.Out with
  | none =>
    if logOK then
      let c := {c with Out := some (inst.ID ++ ".log")}
      (newTapAssign inst tapRes, c, m)
    else
      ((none, some ("open " ++ inst.ID ++ ".log: permission denied")), c, m)
  | some _ => (newTapAssign inst tapRes, c, m)

/-! ## `uml.Start` and helpers -/

/-- `uml.writeInterfaceConfig`: temp dir, register it, set `hostFS`, chmod,
create `eth0` file, write the tap's interface config.  On chmod/create
failure the directory is removed again (but stays registered). -/
def uml.writeInterfaceConfig (u : uml) (c : UMLConfig) (s : Sys) :
    Option String × uml × UMLConfig × Sys :=
  match Sys.tempDir s with
  | (Except.error e, s) => (some e, u, c, s)
  | (Except.ok dir, s) =>
    let u := {u with tempFiles := u.tempFiles ++ [dir]}
    let c := {c with hostFS := dir}
    let s := Sys.log s (Ev.chmodCall dir)
    if s.chmodOK then
      let s := Sys.log s (Ev.createCall (dir ++ "/eth0"))
      if s.createOK then
        if s.ifaceOK then (none, u, c, Sys.log s Ev.ifaceWrite)
        else (some "write eth0: input/output error", u, c, s)
      else
        (some ("open " ++ dir ++ "/eth0: permission denied"), u, c, Sys.removeAll s dir)
    else
      (some ("chmod " ++ dir ++ ": operation not permitted"), u, c, Sys.removeAll s dir)

/-- `uml.tempCOW`: temp dir, chown it to the target user/group, register it,
return `dir/fs.cow1`.  NOTE (faithful to the source): the directory is
registered in `tempFiles` only *after* the chown succeeds, so a failed chown
leaks the just-created directory. -/
def uml.tempCOW (u : uml) (s : Sys) : Except String String × uml × Sys :=
  match Sys.tempDir s with
  | (Except.error e, s) => (Except.error e, u, s)
  | (Except.ok dir, s) =>
    match Sys.chown s dir with
    | (some e, s) => (Except.error e, u, s)
    | (none, s) =>
      let u := {u with tempFiles := u.tempFiles ++ [dir]}
      (Except.ok (dir ++ "/fs.cow1"), u, s)

/-- The drive loop of `uml.Start` (`for i, d := range u.Drives`): resolves
`TempCOW` drives through `tempCOW` and appends the `ubd<i>=...` argument for
each drive.  An error is handed back to `Start`, which runs `cleanup`. -/
def umlStartDrives : List UMLDrive → Nat → uml → UMLConfig → Sys →
    Option String × uml × UMLConfig × Sys
  | [], _, u, c, s => (none, u, c, s)
  | d :: rest, i, u, c, s =>
    if d.TempCOW then
      match uml.tempCOW u s with
      | (Except.error e, u, s) => (some e, u, c, s)
      | (Except.ok cow, u, s) =>
        let c := {c with Args := c.Args ++
          ["ubd" ++ Nat.repr i ++ "=" ++ cow ++ "," ++ d.FS]}
        umlStartDrives rest (i + 1) u c s
    else
      if d.COW ≠ "" then
        let c := {c with Args := c.Args ++
          ["ubd" ++ Nat.repr i ++ "=" ++ d.COW ++ "," ++ d.FS]}
        umlStartDrives rest (i + 1) u c s
      else
        let c := {c with Args := c.Args ++ ["ubd" ++ Nat.repr i ++ "=" ++ d.FS]}
        umlStartDrives rest (i + 1) u c s

/-- `uml.Start`.  Faithful to the source: the error returned by
`writeInterfaceConfig` is discarded (the call's result is ignored), the
backend flags are appended to the *shared* config's `Args`, drives are
resolved (cleanup + error return on failure), and finally the exec bridge is
spawned with `{Uid, Gid, Path, Argv = "linux" :: Args, Env = [HOME]}`
(cleanup + error return on spawn failure). -/
def uml.Start (u : uml) (c : UMLConfig) (s : Sys) :
    Option String × uml × UMLConfig × Sys :=
  let r := uml.writeInterfaceConfig u c s
  let u := r.2.1
  let c := r.2.2.1
  let s := r.2.2.2
  let c := {c with Args := c.Args ++
    ["umid=" ++ u.ID, "con0=fd:0,fd:1", "con=pts", "rw",
     "eth0=tuntap," ++ uml.tapName u, "hostfs=" ++ c.hostFS]}
  let c := if c.Memory ≠ "" then {c with Args := c.Args ++ ["mem=" ++ c.Memory]} else c
  let rd := umlStartDrives c.Drives 0 u c s
  let u := rd.2.1
  let c := rd.2.2.1
  let s := rd.2.2.2
  match rd.1 with
  | some e =>
    let rc := uml.cleanup u s
    (some e, rc.1, c, rc.2)
  | none =>
    let rs := Sys.spawn s c.Path ("linux" :: c.Args) ["HOME=" ++ s.home]
    match rs.1 with
    | Except.error e =>
      let rc := uml.cleanup u rs.2
      (some e, rc.1, c, rc.2)
    | Except.ok p =>
      (none, {u with cmd := some {Process := some p}}, c, rs.2)

/-! ## QEMU backend (`vm`, from the unnamed source file) -/

structure VMDrive where
  FS : String
  COW : String
  TempCOW : Bool
deriving DecidableEq

/-- `VMConfig`.  `Drives` is a Go `map[string]VMDrive`, modelled as an
association list whose order stands for the (unspecified) map iteration
order; `netFS` is the unexported scratch-dir field. -/
structure VMConfig where
  Kernel : String
  User : Int
  Group : Int
  Memory : String
  Drives : List (String × VMDrive)
  Args : List String
  Out : Option String
  netFS : String
deriving DecidableEq

structure vm where
  ID : String
  tap : Option Tap
  cmd : Option Cmd
  tempFiles : List String
deriving DecidableEq

def vm.tapName (u : vm) : String :=
  match u.tap with
  | some t => t.Name
  | none => ""

/-- `vm.cleanup` (identical to `uml.cleanup`). -/
def vm.cleanup (u : vm) (s : Sys) : vm × Sys :=
  let s := u.tempFiles.foldl Sys.removeAll s
  let s := Sys.log s Ev.tapClose
  ({u with tempFiles := []}, s)

/-- `vm.writeInterfaceConfig` (identical to the UML one, writing `netFS`). -/
def vm.writeInterfaceConfig (u : vm) (c : VMConfig) (s : Sys) :
    Option String × vm × VMConfig × Sys :=
  match Sys.tempDir s with
  | (Except.error e, s) => (some e, u, c, s)
  | (Except.ok dir, s) =>
    let u := {u with tempFiles := u.tempFiles ++ [dir]}
    let c := {c with netFS := dir}
    let s := Sys.log s (Ev.chmodCall dir)
    if s.chmodOK then
      let s := Sys.log s (Ev.createCall (dir ++ "/eth0"))
      if s.createOK then
        if s.ifaceOK then (none, u, c, Sys.log s Ev.ifaceWrite)
        else (some "write eth0: input/output error", u, c, s)
      else
        (some ("open " ++ dir ++ "/eth0: permission denied"), u, c, Sys.removeAll s dir)
    else
      (some ("chmod " ++ dir ++ ": operation not permitted"), u, c, Sys.removeAll s dir)

/-- `vm.tempCOW image`: temp dir, register it (*before* chown, unlike the
UML variant), chown, then shell out to
`qemu-img create -f qcow2 -b <image> <dir>/fs.img`; on non-zero exit the
returned error wraps only `err.Error()` (the combined output is not
captured); finally chown the created file and return its path. -/
def vm.tempCOW (u : vm) (image : String) (s : Sys) :
    Except String String × vm × Sys :=
  match Sys.tempDir s with
  | (Except.error e, s) => (Except.error e, u, s)
  | (Except.ok dir, s) =>
    let u := {u with tempFiles := u.tempFiles ++ [dir]}
    match Sys.chown s dir with
    | (some e, s) => (Except.error e, u, s)
    | (none, s) =>
      let path := dir ++ "/fs.img"
      let (res, s) := Sys.runTool s ["qemu-img", "create", "-f", "qcow2", "-b", image, path]
      match res.exitErr with
      | some e => (Except.error ("failed to create COW filesystem: " ++ e), u, s)
      | none =>
        match Sys.chown s path with
        | (some e, s) => (Except.error e, u, s)
        | (none, s) => (Except.ok path, u, s)

/-- The drive loop of `vm.Start` (`for i, d := range u.Drives`, `i` being
the map key): resolves `TempCOW` drives and appends `-<key> <fs>`. -/
def vmStartDrives : List (String × VMDrive) → vm → VMConfig → Sys →
    Option String × vm × VMConfig × Sys
  | [], u, c, s => (none, u, c, s)
  | (key, d) :: rest, u, c, s =>
    if d.TempCOW then
      match vm.tempCOW u d.FS s with
      | (Except.error e, u, s) => (some e, u, c, s)
      | (Except.ok fs, u, s) =>
        let c := {c with Args := c.Args ++ ["-" ++ key, fs]}
        vmStartDrives rest u c s
    else
      let c := {c with Args := c.Args ++ ["-" ++ key, d.FS]}
      vmStartDrives rest u c s

/-- `vm.Start`.  As in the UML backend, `writeInterfaceConfig`'s error is
discarded; the QEMU flags are appended to the shared config's `Args`; the
bridge is spawned with the fixed qemu path. -/
def vm.Start (u : vm) (c : VMConfig) (s : Sys) :
    Option String × vm × VMConfig × Sys :=
  let r := vm.writeInterfaceConfig u c s
  let u := r.2.1
  let c := r.2.2.1
  let s := r.2.2.2
  let c := {c with Args := c.Args ++
    ["-kernel", c.Kernel,
     "-append", "\"root=/dev/sda\"",
     "-net", "nic",
     "-net", "tap,ifname=" ++ vm.tapName u ++ ",script=no,downscript=no",
     "-virtfs", "fsdriver=local,path=" ++ c.netFS ++
       ",security_model=passthrough,readonly,mount_tag=netfs",
     "-nographic"]}
  let c := if c.Memory ≠ "" then {c with Args := c.Args ++ ["-m", c.Memory]} else c
  let rd := vmStartDrives c.Drives u c s
  let u := rd.2.1
  let c := rd.2.2.1
  let s := rd.2.2.2
  match rd.1 with
  | some e =>
    let rc := vm.cleanup u s
    (some e, rc.1, c, rc.2)
  | none =>
    let rs := Sys.spawn s "/usr/bin/qemu-system-x86_64"
      ("/usr/bin/qemu-system-x86_64" :: c.Args) ["HOME=" ++ s.home]
    match rs.1 with
    | Except.error e =>
      let rc := vm.cleanup u rs.2
      (some e, rc.1, c, rc.2)
    | Except.ok p =>
      (none, {u with cmd := some {Process := some p}}, c, rs.2)

/-! ## Privileged exec bridge: `execReq`, `maybeExec` -/

/-- The serialized cross-process privilege-drop request. -/
structure execReq where
  Uid : Int
  Gid : Int
  Path : String
  Argv : List String
  Env : List String
  Dir : String
deriving DecidableEq

/-- Syscalls / process-level actions performed by `maybeExec` after a
successful decode, in order. -/
inductive PAct where
  | setgid (g : Int)
  | setuid (u : Int)
  | chdir (d : String)
  | exec (path : String) (argv env : List String)
  | fatal (msg : String)
deriving DecidableEq

/-- Success/failure of each syscall `maybeExec` may attempt. -/
structure ExecSys where
  setgidOK : Bool
  setuidOK : Bool
  chdirOK : Bool
  execOK : Bool
deriving DecidableEq

/-- Final stage of `maybeExec`: `syscall.Exec` (on success the process image
is replaced and nothing ever runs after it; on failure `log.Fatalf`). -/
def execStage (r : execReq) (e : ExecSys) : List PAct :=
  PAct.exec r.Path r.Argv r.Env :: (if e.execOK then [] else [PAct.fatal "exec"])

/-- `if req.Dir != "" { os.Chdir(req.Dir) }` stage. -/
def chdirStage (r : execReq) (e : ExecSys) : List PAct :=
  if r.Dir ≠ "" then
    PAct.chdir r.Dir :: (if e.chdirOK then execStage r e else [PAct.fatal "chdir"])
  else execStage r e

/-- `if req.Uid > 0 { syscall.Setuid(req.Uid) }` stage. -/
def setuidStage (r : execReq) (e : ExecSys) : List PAct :=
  if 0 < r.Uid then
    PAct.setuid r.Uid :: (if e.setuidOK then chdirStage r e else [PAct.fatal "setuid"])
  else chdirStage r e

/-- `if req.Gid > 0 { syscall.Setgid(req.Gid) }` stage. -/
def setgidStage (r : execReq) (e : ExecSys) : List PAct :=
  if 0 < r.Gid then
    PAct.setgid r.Gid :: (if e.setgidOK then setuidStage r e else [PAct.fatal "setgid"])
  else setuidStage r e

/-- The action trace of `maybeExec` on a decoded request: setgid (if
`Gid > 0`), setuid (if `Uid > 0`), chdir (if `Dir` non-empty), exec; any
failing step ends the trace with a `fatal` (non-zero process exit). -/
def maybeExecTrace (r : execReq) (e : ExecSys) : List PAct :=
  setgidStage r e

/-! ## Wire encoding of `execReq`

`execReq.start` serializes the request with `encoding/gob` and pipes it
through a standard `encoding/base64` encoder into the `_EXEC_REQ`
environment variable; `maybeExec` reverses both layers.  `gob` and `base64`
are Go standard-library code (not part of this repository); the `gob` layer
is modelled here by a concrete self-describing byte serialization of the six
exported fields (ints as sign + base-255 digits, strings as length-prefixed
code points), and the base64 layer is the real base64 alphabet/padding
algorithm on bytes. -/

/-- Little-endian base-255 digits of a natural number (each digit < 255,
so the terminator byte 255 is unambiguous). -/
def natDigits : Nat → List Nat
  | 0 => []
  | n + 1 => ((n + 1) % 255) :: natDigits ((n + 1) / 255)
decreasing_by exact Nat.div_lt_self (Nat.succ_pos _) (by omega)

/-- A natural number on the wire: its digits, then the terminator 255. -/
def encNat (n : Nat) : List Nat := natDigits n ++ [255]

/-- Read a terminated base-255 number, returning it and the rest. -/
def decNat : List Nat → Option (Nat × List Nat)
  | [] => none
  | b :: rest =>
    if b = 255 then some (0, rest)
    else
      match decNat rest with
      | some (n, r) => some (b + 255 * n, r)
      | none => none

/-- An integer on the wire: a sign byte then its absolute value. -/
def encInt (i : Int) : List Nat :=
  (if i < 0 then 1 else 0) :: encNat i.natAbs

def decInt (bs : List Nat) : Option (Int × List Nat) :=
  match bs with
  | [] => none
  | b :: rest =>
    match decNat rest with
    | some (n, r) => some ((if b = 1 then -(n : Int) else (n : Int)), r)
    | none => none

/-- A character on the wire: its code point. -/
def encChar (c : Char) : List Nat := encNat c.toNat

def decChar (bs : List Nat) : Option (Char × List Nat) :=
  match decNat bs with
  | some (n, r) => some (Char.ofNat n, r)
  | none => none

def encChars : List Char → List Nat
  | [] => []
  | c :: cs => encChar c ++ encChars cs

def decChars : Nat → List Nat → Option (List Char × List Nat)
  | 0, bs => some ([], bs)
  | n + 1, bs =>
    match decChar bs with
    | some (c, r) =>
      match decChars n r with
      | some (cs, r') => some (c :: cs, r')
      | none => none
    | none => none

/-- A string on the wire: its length, then its characters. -/
def encStr (s : String) : List Nat := encNat s.toList.length ++ encChars s.toList

def decStr (bs : List Nat) : Option (String × List Nat) :=
  match decNat bs with
  | some (n, r) =>
    match decChars n r with
    | some (cs, r') => some (String.mk cs, r')
    | none => none
  | none => none

def encStrs : List String → List Nat
  | [] => []
  | x :: xs => encStr x ++ encStrs xs

def decStrs : Nat → List Nat → Option (List String × List Nat)
  | 0, bs => some ([], bs)
  | n + 1, bs =>
    match decStr bs with
    | some (x, r) =>
      match decStrs n r with
      | some (xs, r') => some (x :: xs, r')
      | none => none
    | none => none

def encStrList (l : List String) : List Nat := encNat l.length ++ encStrs l

def decStrList (bs : List Nat) : Option (List String × List Nat) :=
  match decNat bs with
  | some (n, r) => decStrs n r
  | none => none

/-- The serialized form of an `execReq` (the model of the gob layer). -/
def encReqBytes (r : execReq) : List Nat :=
  encInt r.Uid ++ encInt r.Gid ++ encStr r.Path ++
    encStrList r.Argv ++ encStrList r.Env ++ encStr r.Dir

def decReqBytes (bs : List Nat) : Option (execReq × List Nat) :=
  match decInt bs with
  | none => none
  | some (uid, bs) =>
    match decInt bs with
    | none => none
    | some (gid, bs) =>
      match decStr bs with
      | none => none
      | some (path, bs) =>
        match decStrList bs with
        | none => none
        | some (argv, bs) =>
          match decStrList bs with
          | none => none
          | some (env, bs) =>
            match decStr bs with
            | none => none
            | some (dir, bs) =>
              some ({Uid := uid, Gid := gid, Path := path,
                     Argv := argv, Env := env, Dir := dir}, bs)

/-! base64 layer (RFC 4648 standard alphabet with `=` padding) -/

def b64chars : List Char :=
  ['A','B','C','D','E','F','G','H','I','J','K','L','M',
   'N','O','P','Q','R','S','T','U','V','W','X','Y','Z',
   'a','b','c','d','e','f','g','h','i','j','k','l','m',
   'n','o','p','q','r','s','t','u','v','w','x','y','z',
   '0','1','2','3','4','5','6','7','8','9','+','/']

def b64c (i : Nat) : Char := b64chars.getD i 'A'

def b64v (c : Char) : Option Nat :=
  let i := List.indexOf c b64chars
  if i < 64 then some i else none

/-- base64-encode a byte sequence (each element < 256). -/
def b64enc : List Nat → List Char
  | [] => []
  | [b1] => [b64c (b1 / 4), b64c (b1 % 4 * 16), '=', '=']
  | [b1, b2] => [b64c (b1 / 4), b64c (b1 % 4 * 16 + b2 / 16), b64c (b2 % 16 * 4), '=']
  | b1 :: b2 :: b3 :: rest =>
    b64c (b1 / 4) :: b64c (b1 % 4 * 16 + b2 / 16) ::
      b64c (b2 % 16 * 4 + b3 / 64) :: b64c (b3 % 64) :: b64enc rest

/-- base64-decode. -/
def b64dec : List Char → Option (List Nat)
  | [] => some []
  | c1 :: c2 :: c3 :: c4 :: rest =>
    (match b64v c1, b64v c2 with
     | some s1, some s2 =>
       if c3 = '=' then
         if c4 = '=' ∧ rest = [] then some [s1 * 4 + s2 / 16] else none
       else
         match b64v c3 with
         | some s3 =>
           if c4 = '=' then
             if rest = [] then some [s1 * 4 + s2 / 16, s2 % 16 * 16 + s3 / 4] else none
           else
             match b64v c4 with
             | some s4 =>
               match b64dec rest with
               | some bs =>
                 some ((s1 * 4 + s2 / 16) :: (s2 % 16 * 16 + s3 / 4) ::
                   (s3 % 4 * 64 + s4) :: bs)
               | none => none
             | none => none
         | none => none
     | _, _ => none)
  | _ => none

/-- `execReq.start`'s encoding of the request into the `_EXEC_REQ` value:
gob, then base64. -/
def encodeExecReq (r : execReq) : String := String.mk (b64enc (encReqBytes r))

/-- `maybeExec`'s decoding of the `_EXEC_REQ` value: base64, then gob. -/
def decodeExecReq (s : String) : Option execReq :=
  match b64dec s.toList with
  | some bs =>
    match decReqBytes bs with
    | some (r, _) => some r
    | none => none
  | none => none

/-! ## Statement helpers and concrete fixtures -/

/-- `a` followed immediately by `b` occurs somewhere in `l`. -/
def pairIn (a b : String) (l : List String) : Prop :=
  ∃ l1 l2, l = l1 ++ a :: b :: l2

/-- `need` is an initial run of `hay`. -/
def listLeads : List Char → List Char → Bool
  | [], _ => true
  | _ :: _, [] => false
  | a :: as, b :: bs => (a = b : Bool) && listLeads as bs

/-- `need` occurs contiguously somewhere in `hay`. -/
def hasRun (need hay : List Char) : Bool :=
  match hay with
  | [] => need.isEmpty
  | _ :: t => listLeads need hay || hasRun need t

/-- `sub` is a contiguous substring of `s`. -/
def strContains (s sub : String) : Bool := hasRun sub.toList s.toList

def tap0 : Tap := {Name := "flynntap0", RemoteIP := "192.168.0.2"}

def sys0 : Sys :=
  {tmpCounter := 0, tempDirOK := [], chmodOK := true, createOK := true,
   ifaceOK := true, chownOK := [], toolQ := [], spawnOK := true,
   home := "/root", events := []}

def cfg0 : UMLConfig :=
  {Path := "linux", User := 1000, Group := 1000, Memory := "512MB",
   Drives := [{FS := "rootfs.img", COW := "", TempCOW := true}],
   Args := [], Out := some "stdout", hostFS := ""}

/-- The instance a successful `NewInstance` on `cfg0` hands back. -/
def inst0 : uml := {ID := "flynn0", tap := some tap0, cmd := none, tempFiles := []}

/-- An instance after a successful `Start` (live process, one temp dir). -/
def instStarted : uml :=
  {inst0 with cmd := some {Process := some {alive := true}},
              tempFiles := ["/tmp/flynn0"]}

/-- A concrete privilege-drop request used as test vector. -/
def req0 : execReq :=
  {Uid := 50, Gid := 100, Path := "/bin/sh", Argv := ["sh"], Env := [], Dir := ""}

/-- Syscall oracle where only the setgid syscall fails. -/
def esysFailSetgid : ExecSys :=
  {setgidOK := false, setuidOK := true, chdirOK := true, execOK := true}

/-- Syscall oracle where only the setuid syscall fails. -/
def esysFailSetuid : ExecSys :=
  {setgidOK := true, setuidOK := false, chdirOK := true, execOK := true}

/-- Oracle where the very first `TempDir` call fails and everything else
succeeds. -/
def sysWicFail : Sys := {sys0 with tempDirOK := [false]}

/-- `cfg0` without drives (isolates the interface-config step). -/
def cfgNoDrives : UMLConfig := {cfg0 with Drives := []}

/-- A start-state with an arbitrary fresh-name counter, all operations
succeeding. -/
def sysAt (k : Nat) : Sys := {sys0 with tmpCounter := k}

/-- An unstarted instance holding tap `t` (guest address `ip`). -/
def instWithTap (t ip : String) : uml :=
  {ID := "flynn0", tap := some {Name := t, RemoteIP := ip}, cmd := none, tempFiles := []}

/-- The C7 scenario config: one `TempCOW` drive over `rootfs.img`, memory
`512MB`, arbitrary remaining fields. -/
def cfgC7 (usr grp : Int) (args0 : List String) (outw : Option String) : UMLConfig :=
  {Path := "linux", User := usr, Group := grp, Memory := "512MB",
   Drives := [{FS := "rootfs.img", COW := "", TempCOW := true}],
   Args := args0, Out := outw, hostFS := ""}

/-- The backend-flag block one `uml.Start` call appends to the shared
config's `Args` (six fixed flags plus the memory flag when set). -/
def umlBackendFlags (id tap host mem : String) : List String :=
  ["umid=" ++ id, "con0=fd:0,fd:1", "con=pts", "rw",
   "eth0=tuntap," ++ tap, "hostfs=" ++ host] ++
  (if mem ≠ "" then ["mem=" ++ mem] else [])

/-- The C8 scenario's `hda` drive: `{FS:"rootfs.img", TempCOW:true}`. -/
def hdaDrive : VMDrive := {FS := "rootfs.img", COW := "", TempCOW := true}

/-- The C8 scenario's `hdb` drive: `{FS:"data.img"}`. -/
def hdbDrive : VMDrive := {FS := "data.img", COW := "", TempCOW := false}

/-- The C8 scenario config; `drives` is the map contents in one of its
possible iteration orders. -/
def cfgC8 (drives : List (String × VMDrive)) (args0 : List String)
    (usr grp : Int) (outw : Option String) : VMConfig :=
  {Kernel := "vmlinuz", User := usr, Group := grp, Memory := "512",
   Drives := drives, Args := args0, Out := outw, netFS := ""}

/-- An unstarted QEMU-backend instance holding tap `t`. -/
def vmWithTap (t ip : String) : vm :=
  {ID := "flynn0", tap := some {Name := t, RemoteIP := ip}, cmd := none, tempFiles := []}

/-- Oracle for C9: the `qemu-img` invocation exits non-zero ("exit status 1")
while printing a diagnostic on its combined output. -/
def sysToolFail : Sys :=
  {sys0 with toolQ := [{exitErr := some "exit status 1",
                        output := "qemu-img: cannot create overlay: boom"}]}

/-- The fixed QEMU flag block `vm.Start` appends before the drive flags. -/
def vmFixedFlags (t host : String) : List String :=
  ["-kernel", "vmlinuz",
   "-append", "\"root=/dev/sda\"",
   "-net", "nic",
   "-net", "tap,ifname=" ++ t ++ ",script=no,downscript=no",
   "-virtfs", "fsdriver=local,path=" ++ host ++
     ",security_model=passthrough,readonly,mount_tag=netfs",
   "-nographic"]

/-! # Theorems -/

/-! ## C1: Kill without Start -/

/-- C1 counterexample.  The claim says `NewInstance` immediately followed by
`Kill` (no `Start`) does not panic; on the concrete config `cfg0` the
instance handed back by a successful `NewInstance` has a nil `cmd`, so
`u.cmd.Process` in `Kill` is a nil-pointer dereference and the call
panics. -/
theorem C1_kill_before_start_panics :
    (UMLManager.NewInstance {nextID := 0} cfg0 true (Except.ok tap0)).1 =
      (some inst0, none) ∧
    (uml.Kill inst0 sys0).1 = CallRes.panicked := by
  exact ⟨rfl, rfl⟩

/-- C1 amended: for every config on which `NewInstance` succeeds, the
returned instance has a nil `cmd`, so calling `Kill` before `Start` panics
with a nil-pointer dereference; the deferred `cleanup` still runs during the
panic, so `Close` on the allocated tap endpoint *is* called (the endpoint is
released even though `Start` never ran, but through a panic, not a normal
return). -/
theorem C1_kill_before_start_panics_but_releases_tap
    (m : UMLManager) (c : UMLConfig) (logOK : Bool) (t : Tap) (s : Sys) (i : uml)
    (h : (UMLManager.NewInstance m c logOK (Except.ok t)).1 = (some i, none)) :
    (uml.Kill i s).1 = CallRes.panicked ∧
    Ev.tapClose ∈ (uml.Kill i s).2.2.events := by
  have hi : i.cmd = none ∧ i.tempFiles = [] := by
    unfold UMLManager.NewInstance at h
    rcases hOut : c.Out with _ | w <;> simp only [hOut] at h
    · cases logOK
      · simp [newTapAssign] at h
      · simp only [if_true, newTapAssign, Prod.mk.injEq, Option.some.injEq] at h
        obtain ⟨h1, -⟩ := h
        subst h1
        exact ⟨rfl, rfl⟩
    · simp only [newTapAssign, Prod.mk.injEq, Option.some.injEq] at h
      obtain ⟨h1, -⟩ := h
      subst h1
      exact ⟨rfl, rfl⟩
  obtain ⟨hcmd, hfiles⟩ := hi
  unfold uml.Kill
  rw [hcmd]
  unfold uml.cleanup
  rw [hfiles]
  simp [Sys.log]

/-- Witness for the C1 amended theorem at the concrete fixture. -/
theorem C1_kill_before_start_witness :
    (uml.Kill inst0 sys0).1 = CallRes.panicked ∧
    Ev.tapClose ∈ (uml.Kill inst0 sys0).2.2.events :=
  C1_kill_before_start_panics_but_releases_tap {nextID := 0} cfg0 true tap0 sys0 inst0 rfl

/-! ## C2: NewInstance failure modes -/

/-- C2 counterexample.  The claim says the caller never receives a non-nil
Instance together with a non-nil error; when tap allocation fails,
`NewInstance` executes `inst.tap, err = u.taps.NewTap(...)` followed by
`return inst, err`, handing back the partially-built instance *and* the
error. -/
theorem C2_partial_instance_on_tap_failure :
    (UMLManager.NewInstance {nextID := 0} cfg0 true
        (Except.error "tap device allocation failed")).1 =
      (some {ID := "flynn0", tap := none, cmd := none, tempFiles := []},
       some "tap device allocation failed") := by
  exact rfl

/-- C2 amended: on log-file creation failure `NewInstance` returns
`(nil, error)` as the claim says, but on tap-allocation failure it returns
the partially-built instance (with no tap) alongside the error. -/
theorem C2_error_return_shape
    (m : UMLManager) (c : UMLConfig) (logOK : Bool) (tapRes : Except String Tap) :
    (c.Out = none → logOK = false →
      (UMLManager.NewInstance m c logOK tapRes).1.1 = none ∧
      ((UMLManager.NewInstance m c logOK tapRes).1.2).isSome = true) ∧
    (∀ e, tapRes = Except.error e → (c.Out ≠ none ∨ logOK = true) →
      (UMLManager.NewInstance m c logOK tapRes).1.2 = some e ∧
      ∃ i, (UMLManager.NewInstance m c logOK tapRes).1.1 = some i ∧
        i.tap = none ∧ i.cmd = none) := by
  constructor
  · intro hOut hLog
    unfold UMLManager.NewInstance
    rw [hOut, hLog]
    simp
  · intro e hTap hOk
    subst hTap
    unfold UMLManager.NewInstance
    rcases hOut : c.Out with _ | w
    · rcases hOk with h | h
      · exact absurd hOut h
      · rw [h]
        simp [newTapAssign]
    · simp [newTapAssign]

/-- Witness for the C2 amended theorem: the log-failure half at a concrete
config with `Out = nil`, and the tap-failure half at `cfg0`. -/
theorem C2_error_return_witness :
    ((UMLManager.NewInstance {nextID := 0} {cfg0 with Out := none} false
        (Except.ok tap0)).1.1 = none ∧
      ((UMLManager.NewInstance {nextID := 0} {cfg0 with Out := none} false
        (Except.ok tap0)).1.2).isSome = true) ∧
    ((UMLManager.NewInstance {nextID := 0} cfg0 true
        (Except.error "no taps left")).1.2 = some "no taps left" ∧
      ∃ i, (UMLManager.NewInstance {nextID := 0} cfg0 true
        (Except.error "no taps left")).1.1 = some i ∧
        i.tap = none ∧ i.cmd = none) :=
  ⟨(C2_error_return_shape {nextID := 0} {cfg0 with Out := none} false
      (Except.ok tap0)).1 rfl rfl,
   (C2_error_return_shape {nextID := 0} cfg0 true
      (Except.error "no taps left")).2 "no taps left" rfl (Or.inr rfl)⟩

/-! ## C6: cleanup idempotence -/

/-- C6 counterexample.  The claim says running the cleanup logic twice (here
`Wait` then `Kill` on a started instance) does not release any resource
twice, in particular not the tap endpoint; but `cleanup` calls
`u.tap.Close()` unconditionally on every invocation, so the trace holds two
`tapClose` events. -/
theorem C6_tap_closed_twice :
    ((uml.Kill (uml.Wait instStarted sys0).2.1
        (uml.Wait instStarted sys0).2.2).2.2.events).count Ev.tapClose = 2 := by
  decide

/-- C6 amended: the second run of `cleanup` performs no removals (the first
run resets `tempFiles` to nil, so each registered temp path is removed only
by the first pass, and the second pass cannot error), but each run calls
`Close` on the tap endpoint once more, so the endpoint is released once per
pass rather than at most once. -/
theorem C6_cleanup_second_pass (u : uml) (s : Sys) :
    (uml.cleanup u s).1.tempFiles = [] ∧
    (uml.cleanup (uml.cleanup u s).1 (uml.cleanup u s).2).2.events =
      (uml.cleanup u s).2.events ++ [Ev.tapClose] ∧
    ((uml.cleanup (uml.cleanup u s).1 (uml.cleanup u s).2).2.events).count Ev.tapClose
      = ((uml.cleanup u s).2.events).count Ev.tapClose + 1 := by
  refine ⟨rfl, ?_, ?_⟩ <;> simp [uml.cleanup, Sys.log]

/-! ## Generic list-position helpers -/

theorem only_head_idx {α} {x A : α} {t : List α} (hne : A ∉ t) :
    ∀ i, (x :: t).get? i = some A → i = 0 := by
  intro i hi
  cases i with
  | zero => rfl
  | succ n =>
    simp only [List.get?_cons_succ] at hi
    exact absurd (List.get?_mem hi) hne

theorem idx_order {α} {l : List α} {A B : α}
    (hA : ∀ i, l.get? i = some A → i = 0) (hAB : A ≠ B) :
    ∀ i j, l.get? i = some A → l.get? j = some B → i < j := by
  intro i j hi hj
  have h0 := hA i hi
  subst h0
  cases j with
  | zero => rw [hi] at hj; exact absurd (Option.some.inj hj) hAB
  | succ n => omega

theorem idx_before {α} {p q : List α} {A B : α}
    (hA : A ∉ q) (hB : B ∉ p) {i j : Nat}
    (hi : (p ++ q).get? i = some A) (hj : (p ++ q).get? j = some B) : i < j := by
  by_contra hc
  push_neg at hc
  rcases lt_or_ge i p.length with h1 | h1
  · have hj' : p.get? j = some B := by
      rw [List.get?_append (lt_of_le_of_lt hc h1)] at hj
      exact hj
    exact hB (List.get?_mem hj')
  · have hi' : q.get? (i - p.length) = some A := by
      rw [List.get?_append_right h1] at hi
      exact hi
    exact hA (List.get?_mem hi')

theorem drop_after {α} {p q : List α} {B : α} (hB : B ∉ p)
    (hBq : ∀ i, q.get? i = some B → i = 0)
    {i : Nat} (hi : (p ++ q).get? i = some B) : (p ++ q).drop (i + 1) = q.drop 1 := by
  have hip : p.length ≤ i := by
    by_contra h
    push_neg at h
    rw [List.get?_append h] at hi
    exact hB (List.get?_mem hi)
  have hq : q.get? (i - p.length) = some B := by
    rw [← List.get?_append_right hip]
    exact hi
  have h0 := hBq _ hq
  have hieq : i = p.length := by omega
  subst hieq
  rw [← List.drop_drop, List.drop_left]

/-! ## C4: maybeExec stage lemmas -/

theorem not_setgid_execStage (r : execReq) (e : ExecSys) (g : Int) :
    PAct.setgid g ∉ execStage r e := by
  cases hE : e.execOK <;> simp [execStage, hE]

theorem not_setuid_execStage (r : execReq) (e : ExecSys) (v : Int) :
    PAct.setuid v ∉ execStage r e := by
  cases hE : e.execOK <;> simp [execStage, hE]

theorem not_chdir_execStage (r : execReq) (e : ExecSys) (d : String) :
    PAct.chdir d ∉ execStage r e := by
  cases hE : e.execOK <;> simp [execStage, hE]

theorem not_setgid_chdirStage (r : execReq) (e : ExecSys) (g : Int) :
    PAct.setgid g ∉ chdirStage r e := by
  by_cases hd : r.Dir = "" <;> cases hc : e.chdirOK <;>
    simp [chdirStage, hd, hc, not_setgid_execStage]

theorem not_setuid_chdirStage (r : execReq) (e : ExecSys) (v : Int) :
    PAct.setuid v ∉ chdirStage r e := by
  by_cases hd : r.Dir = "" <;> cases hc : e.chdirOK <;>
    simp [chdirStage, hd, hc, not_setuid_execStage]

theorem not_setgid_setuidStage (r : execReq) (e : ExecSys) (g : Int) :
    PAct.setgid g ∉ setuidStage r e := by
  by_cases hu : 0 < r.Uid <;> cases hs : e.setuidOK <;>
    simp [setuidStage, hu, hs, not_setgid_chdirStage]

theorem setgid_mem_trace (r : execReq) (e : ExecSys) (g : Int)
    (h : PAct.setgid g ∈ maybeExecTrace r e) : 0 < r.Gid ∧ g = r.Gid := by
  unfold maybeExecTrace setgidStage at h
  by_cases hg : 0 < r.Gid
  · refine ⟨hg, ?_⟩
    rw [if_pos hg] at h
    rcases List.mem_cons.mp h with h | h
    · exact (PAct.setgid.injEq .. ▸ h)
    · cases hs : e.setgidOK <;> rw [hs] at h <;> simp at h
      exact absurd h (not_setgid_setuidStage r e g)
  · rw [if_neg hg] at h
    exact absurd h (not_setgid_setuidStage r e g)

theorem setuid_mem_setuidStage (r : execReq) (e : ExecSys) (v : Int)
    (h : PAct.setuid v ∈ setuidStage r e) : 0 < r.Uid ∧ v = r.Uid := by
  unfold setuidStage at h
  by_cases hu : 0 < r.Uid
  · refine ⟨hu, ?_⟩
    rw [if_pos hu] at h
    rcases List.mem_cons.mp h with h | h
    · exact (PAct.setuid.injEq .. ▸ h)
    · cases hs : e.setuidOK <;> rw [hs] at h <;> simp at h
      exact absurd h (not_setuid_chdirStage r e v)
  · rw [if_neg hu] at h
    exact absurd h (not_setuid_chdirStage r e v)

theorem setuid_mem_trace (r : execReq) (e : ExecSys) (v : Int)
    (h : PAct.setuid v ∈ maybeExecTrace r e) : 0 < r.Uid ∧ v = r.Uid := by
  unfold maybeExecTrace setgidStage at h
  by_cases hg : 0 < r.Gid
  · rw [if_pos hg] at h
    rcases List.mem_cons.mp h with h | h
    · exact absurd h (by simp)
    · cases hs : e.setgidOK <;> rw [hs] at h
      · simp at h
      · exact setuid_mem_setuidStage r e v h
  · rw [if_neg hg] at h
    exact setuid_mem_setuidStage r e v h

theorem chdir_mem_chdirStage (r : execReq) (e : ExecSys) (d : String)
    (h : PAct.chdir d ∈ chdirStage r e) : r.Dir ≠ "" ∧ d = r.Dir := by
  unfold chdirStage at h
  by_cases hd : r.Dir ≠ ""
  · refine ⟨hd, ?_⟩
    rw [if_pos hd] at h
    rcases List.mem_cons.mp h with h | h
    · exact (PAct.chdir.injEq .. ▸ h)
    · cases hs : e.chdirOK <;> rw [hs] at h <;> simp at h
      exact absurd h (not_chdir_execStage r e d)
  · rw [if_neg hd] at h
    exact absurd h (not_chdir_execStage r e d)

theorem chdir_mem_setuidStage (r : execReq) (e : ExecSys) (d : String)
    (h : PAct.chdir d ∈ setuidStage r e) : r.Dir ≠ "" ∧ d = r.Dir := by
  unfold setuidStage at h
  by_cases hu : 0 < r.Uid
  · rw [if_pos hu] at h
    rcases List.mem_cons.mp h with h | h
    · exact absurd h (by simp)
    · cases hs : e.setuidOK <;> rw [hs] at h
      · simp at h
      · exact chdir_mem_chdirStage r e d h
  · rw [if_neg hu] at h
    exact chdir_mem_chdirStage r e d h

theorem chdir_mem_trace (r : execReq) (e : ExecSys) (d : String)
    (h : PAct.chdir d ∈ maybeExecTrace r e) : r.Dir ≠ "" ∧ d = r.Dir := by
  unfold maybeExecTrace setgidStage at h
  by_cases hg : 0 < r.Gid
  · rw [if_pos hg] at h
    rcases List.mem_cons.mp h with h | h
    · exact absurd h (by simp)
    · cases hs : e.setgidOK <;> rw [hs] at h
      · simp at h
      · exact chdir_mem_setuidStage r e d h
  · rw [if_neg hg] at h
    exact chdir_mem_setuidStage r e d h

theorem chdir_decomp_exec (r : execReq) (e : ExecSys) :
    (∃ f, chdirStage r e = f ++ execStage r e ∧
      (∀ p a ev, PAct.exec p a ev ∉ f) ∧ (∀ d, PAct.chdir d ∉ execStage r e)) ∨
    (∀ p a ev, PAct.exec p a ev ∉ chdirStage r e) := by
  by_cases hd : r.Dir = ""
  · exact Or.inl ⟨[], by simp [chdirStage, hd], by simp, not_chdir_execStage r e⟩
  · cases hc : e.chdirOK
    · right
      intro p a ev
      simp [chdirStage, hd, hc]
    · exact Or.inl ⟨[PAct.chdir r.Dir], by simp [chdirStage, hd, hc], by simp,
        not_chdir_execStage r e⟩

theorem setuid_decomp_exec (r : execReq) (e : ExecSys) :
    (∃ f, setuidStage r e = f ++ execStage r e ∧
      (∀ p a ev, PAct.exec p a ev ∉ f)) ∨
    (∀ p a ev, PAct.exec p a ev ∉ setuidStage r e) := by
  by_cases hu : 0 < r.Uid
  · cases hs : e.setuidOK
    · right
      intro p a ev
      simp [setuidStage, hu, hs]
    · rcases chdir_decomp_exec r e with ⟨f, hf, hnf, -⟩ | hn
      · exact Or.inl ⟨PAct.setuid r.Uid :: f, by simp [setuidStage, hu, hs, hf],
          by simp [hnf]⟩
      · right
        intro p a ev
        simp [setuidStage, hu, hs, hn p a ev]
  · rcases chdir_decomp_exec r e with ⟨f, hf, hnf, -⟩ | hn
    · exact Or.inl ⟨f, by simp [setuidStage, hu, hf], hnf⟩
    · right
      intro p a ev
      simp [setuidStage, hu, hn p a ev]

theorem trace_decomp_exec (r : execReq) (e : ExecSys) :
    (∃ f, maybeExecTrace r e = f ++ execStage r e ∧
      (∀ p a ev, PAct.exec p a ev ∉ f)) ∨
    (∀ p a ev, PAct.exec p a ev ∉ maybeExecTrace r e) := by
  by_cases hg : 0 < r.Gid
  · cases hs : e.setgidOK
    · right
      intro p a ev
      simp [maybeExecTrace, setgidStage, hg, hs]
    · rcases setuid_decomp_exec r e with ⟨f, hf, hnf⟩ | hn
      · exact Or.inl ⟨PAct.setgid r.Gid :: f,
          by simp [maybeExecTrace, setgidStage, hg, hs, hf], by simp [hnf]⟩
      · right
        intro p a ev
        simp [maybeExecTrace, setgidStage, hg, hs, hn p a ev]
  · rcases setuid_decomp_exec r e with ⟨f, hf, hnf⟩ | hn
    · exact Or.inl ⟨f, by simp [maybeExecTrace, setgidStage, hg, hf], hnf⟩
    · right
      intro p a ev
      simp [maybeExecTrace, setgidStage, hg, hn p a ev]

theorem trace_decomp_chdir (r : execReq) (e : ExecSys) (hd : r.Dir ≠ "") :
    (∃ front, maybeExecTrace r e =
        (front ++ [PAct.chdir r.Dir]) ++
          (if e.chdirOK then execStage r e else [PAct.fatal "chdir"]) ∧
      (∀ p a ev, PAct.exec p a ev ∉ front ++ [PAct.chdir r.Dir])) ∨
    (∀ d, PAct.chdir d ∉ maybeExecTrace r e) := by
  have hch : chdirStage r e =
      PAct.chdir r.Dir :: (if e.chdirOK then execStage r e else [PAct.fatal "chdir"]) := by
    unfold chdirStage
    rw [if_pos hd]
  by_cases hg : 0 < r.Gid
  · cases hs : e.setgidOK
    · right
      intro d
      simp [maybeExecTrace, setgidStage, hg, hs]
    · by_cases hu : 0 < r.Uid
      · cases hsu : e.setuidOK
        · right
          intro d
          simp [maybeExecTrace, setgidStage, setuidStage, hg, hs, hu, hsu]
        · refine Or.inl ⟨[PAct.setgid r.Gid, PAct.setuid r.Uid], ?_, by simp⟩
          simp [maybeExecTrace, setgidStage, setuidStage, hg, hs, hu, hsu, hch]
      · refine Or.inl ⟨[PAct.setgid r.Gid], ?_, by simp⟩
        simp [maybeExecTrace, setgidStage, setuidStage, hg, hs, hu, hch]
  · by_cases hu : 0 < r.Uid
    · cases hsu : e.setuidOK
      · right
        intro d
        simp [maybeExecTrace, setgidStage, setuidStage, hg, hu, hsu]
      · refine Or.inl ⟨[PAct.setuid r.Uid], ?_, by simp⟩
        simp [maybeExecTrace, setgidStage, setuidStage, hg, hu, hsu, hch]
    · refine Or.inl ⟨[], ?_, by simp⟩
      simp [maybeExecTrace, setgidStage, setuidStage, hg, hu, hch]

/-- C4: on every decoded request, `maybeExec` performs setgid only when the
target gid is positive and setuid only when the target uid is positive, with
setgid strictly before setuid and chdir (only for a non-empty dir) strictly
before the final exec; nothing follows the exec except the fatal exit on
exec failure; with `Uid = 0`, `Gid = 0` (and no dir) the trace goes straight
to exec; and a failure at any step is fatal, never retried or ignored: a
setgid failure ends the trace as exactly `[setgid, fatal]`, a setuid failure
as `…, setuid, fatal`, and a chdir failure as `…, chdir, fatal` — the failed
syscall appears once and nothing runs after the fatal exit. -/
theorem C4_maybeExec_privilege_order (r : execReq) (e : ExecSys) :
    (∀ g, PAct.setgid g ∈ maybeExecTrace r e → 0 < r.Gid ∧ g = r.Gid) ∧
    (∀ v, PAct.setuid v ∈ maybeExecTrace r e → 0 < r.Uid ∧ v = r.Uid) ∧
    (∀ d, PAct.chdir d ∈ maybeExecTrace r e → r.Dir ≠ "" ∧ d = r.Dir) ∧
    (∀ i j g v, (maybeExecTrace r e).get? i = some (PAct.setgid g) →
      (maybeExecTrace r e).get? j = some (PAct.setuid v) → i < j) ∧
    (∀ i j d p a ev, (maybeExecTrace r e).get? i = some (PAct.chdir d) →
      (maybeExecTrace r e).get? j = some (PAct.exec p a ev) → i < j) ∧
    (∀ i p a ev, (maybeExecTrace r e).get? i = some (PAct.exec p a ev) →
      (maybeExecTrace r e).drop (i + 1) = [] ∨
      (maybeExecTrace r e).drop (i + 1) = [PAct.fatal "exec"]) ∧
    (r.Gid = 0 → r.Uid = 0 → r.Dir = "" →
      (maybeExecTrace r e).head? = some (PAct.exec r.Path r.Argv r.Env)) ∧
    (0 < r.Gid → e.setgidOK = false →
      maybeExecTrace r e = [PAct.setgid r.Gid, PAct.fatal "setgid"]) ∧
    (0 < r.Uid → e.setuidOK = false → (0 < r.Gid → e.setgidOK = true) →
      maybeExecTrace r e =
        (if 0 < r.Gid then [PAct.setgid r.Gid] else []) ++
          [PAct.setuid r.Uid, PAct.fatal "setuid"]) ∧
    (r.Dir ≠ "" → e.chdirOK = false → (0 < r.Gid → e.setgidOK = true) →
      (0 < r.Uid → e.setuidOK = true) →
      maybeExecTrace r e =
        (if 0 < r.Gid then [PAct.setgid r.Gid] else []) ++
          (if 0 < r.Uid then [PAct.setuid r.Uid] else []) ++
          [PAct.chdir r.Dir, PAct.fatal "chdir"]) := by
  refine ⟨setgid_mem_trace r e, setuid_mem_trace r e, chdir_mem_trace r e,
    ?_, ?_, ?_, ?_, ?_, ?_, ?_⟩
  · intro i j g v hi hj
    obtain ⟨hg, -⟩ := setgid_mem_trace r e g (List.get?_mem hi)
    have htr : maybeExecTrace r e = PAct.setgid r.Gid ::
        (if e.setgidOK then setuidStage r e else [PAct.fatal "setgid"]) := by
      unfold maybeExecTrace setgidStage
      rw [if_pos hg]
    rw [htr] at hi hj
    refine idx_order (only_head_idx ?_) (by simp) i j hi hj
    cases hs : e.setgidOK
    · simp
    · simpa using not_setgid_setuidStage r e g
  · intro i j d p a ev hi hj
    obtain ⟨hd, -⟩ := chdir_mem_trace r e d (List.get?_mem hi)
    rcases trace_decomp_chdir r e hd with ⟨front, hfr, hef⟩ | hnone
    · rw [hfr] at hi hj
      refine idx_before ?_ (hef p a ev) hi hj
      cases hc : e.chdirOK
      · simp
      · simpa using not_chdir_execStage r e d
    · exact absurd (List.get?_mem hi) (hnone d)
  · intro i p a ev hi
    rcases trace_decomp_exec r e with ⟨f, hf, hnf⟩ | hnone
    · rw [hf] at hi ⊢
      have hq : ∀ k, (execStage r e).get? k = some (PAct.exec p a ev) → k = 0 := by
        intro k hk
        unfold execStage at hk
        refine only_head_idx ?_ k hk
        cases hE : e.execOK <;> simp [hE]
      rw [drop_after (hnf p a ev) hq hi]
      cases hE : e.execOK <;> simp [execStage, hE]
    · exact absurd (List.get?_mem hi) (hnone p a ev)
  · intro hg hu hd
    have hg' : ¬ 0 < r.Gid := by omega
    have hu' : ¬ 0 < r.Uid := by omega
    simp [maybeExecTrace, setgidStage, setuidStage, chdirStage, execStage, hg', hu', hd]
  · intro hg hs
    unfold maybeExecTrace setgidStage
    rw [if_pos hg, hs]
    rfl
  · intro hu hsu hsg
    by_cases hg : 0 < r.Gid
    · have hsg' := hsg hg
      simp [maybeExecTrace, setgidStage, setuidStage, hg, hsg', hu, hsu]
    · simp [maybeExecTrace, setgidStage, setuidStage, hg, hu, hsu]
  · intro hd hcd hsg hsu
    by_cases hg : 0 < r.Gid <;> by_cases hu : 0 < r.Uid
    · have hsg' := hsg hg
      have hsu' := hsu hu
      simp [maybeExecTrace, setgidStage, setuidStage, chdirStage, hg, hsg', hu,
        hsu', hd, hcd]
    · have hsg' := hsg hg
      simp [maybeExecTrace, setgidStage, setuidStage, chdirStage, hg, hsg', hu,
        hd, hcd]
    · have hsu' := hsu hu
      simp [maybeExecTrace, setgidStage, setuidStage, chdirStage, hg, hu, hsu',
        hd, hcd]
    · simp [maybeExecTrace, setgidStage, setuidStage, chdirStage, hg, hu, hd, hcd]

/-- Witness for C4 at concrete requests: `Gid = 100` with a failing setgid
syscall produces exactly the fatal two-step trace, and a failing setuid
syscall (setgid succeeding) produces exactly `[setgid, setuid, fatal]`. -/
theorem C4_maybeExec_witness :
    maybeExecTrace req0 esysFailSetgid = [PAct.setgid 100, PAct.fatal "setgid"] ∧
    maybeExecTrace req0 esysFailSetuid =
      [PAct.setgid 100, PAct.setuid 50, PAct.fatal "setuid"] :=
  ⟨(C4_maybeExec_privilege_order req0 esysFailSetgid).2.2.2.2.2.2.2.1
      (by decide) rfl,
   (C4_maybeExec_privilege_order req0 esysFailSetuid).2.2.2.2.2.2.2.2.1
      (by decide) rfl (fun _ => rfl)⟩

/-! ## C3: wire-encoding round trip -/

theorem natDigits_lt (n : Nat) : ∀ b ∈ natDigits n, b < 255 := by
  induction n using natDigits.induct with
  | case1 => simp [natDigits]
  | case2 n ih =>
    intro b hb
    rw [natDigits] at hb
    rcases List.mem_cons.mp hb with h | h
    · subst h
      exact Nat.mod_lt _ (by omega)
    · exact ih b h

theorem decNat_enc (n : Nat) : ∀ r, decNat (natDigits n ++ 255 :: r) = some (n, r) := by
  induction n using natDigits.induct with
  | case1 =>
    intro r
    simp [natDigits, decNat]
  | case2 n ih =>
    intro r
    rw [natDigits]
    simp only [List.cons_append, decNat, List.append_eq,
      if_neg (by omega : ¬ (n + 1) % 255 = 255)]
    rw [ih r]
    have : (n + 1) % 255 + 255 * ((n + 1) / 255) = n + 1 := Nat.mod_add_div _ _
    simp [this]

theorem decNat_encNat (n : Nat) (r : List Nat) :
    decNat (encNat n ++ r) = some (n, r) := by
  unfold encNat
  rw [List.append_assoc]
  exact decNat_enc n r

theorem decInt_encInt (i : Int) (r : List Nat) :
    decInt (encInt i ++ r) = some (i, r) := by
  unfold encInt decInt
  by_cases hi : i < 0
  · simp only [if_pos hi, List.cons_append, decNat_encNat]
    simp [abs_of_neg hi]
  · simp only [if_neg hi, List.cons_append, decNat_encNat]
    simp [abs_of_nonneg (by omega : (0 : Int) ≤ i)]

theorem decChar_encChar (c : Char) (r : List Nat) :
    decChar (encChar c ++ r) = some (c, r) := by
  unfold encChar decChar
  rw [decNat_encNat]
  simp [Char.ofNat_toNat]

theorem decChars_encChars (cs : List Char) (r : List Nat) :
    decChars cs.length (encChars cs ++ r) = some (cs, r) := by
  induction cs generalizing r with
  | nil => simp [encChars, decChars]
  | cons c cs ih =>
    simp only [List.length_cons, encChars, List.append_assoc, decChars,
      decChar_encChar, ih]

theorem decStr_encStr (s : String) (r : List Nat) :
    decStr (encStr s ++ r) = some (s, r) := by
  unfold encStr decStr
  rw [List.append_assoc, decNat_encNat]
  simp only [decChars_encChars]
  have : String.mk s.toList = s := by cases s; rfl
  simp [this]

theorem decStrs_encStrs (l : List String) (r : List Nat) :
    decStrs l.length (encStrs l ++ r) = some (l, r) := by
  induction l generalizing r with
  | nil => simp [encStrs, decStrs]
  | cons x xs ih =>
    simp only [List.length_cons, encStrs, List.append_assoc, decStrs,
      decStr_encStr, ih]

theorem decStrList_encStrList (l : List String) (r : List Nat) :
    decStrList (encStrList l ++ r) = some (l, r) := by
  unfold encStrList decStrList
  rw [List.append_assoc, decNat_encNat]
  simp [decStrs_encStrs]

theorem decReq_encReq (q : execReq) (r : List Nat) :
    decReqBytes (encReqBytes q ++ r) = some (q, r) := by
  unfold encReqBytes decReqBytes
  simp only [List.append_assoc, decInt_encInt, decStr_encStr, decStrList_encStrList]

/-! Byte bounds: everything the serializer emits is a byte (< 256). -/

theorem encNat_bytes (n : Nat) : ∀ b ∈ encNat n, b < 256 := by
  intro b hb
  unfold encNat at hb
  rcases List.mem_append.mp hb with h | h
  · exact lt_trans (natDigits_lt n b h) (by omega)
  · simp at h
    omega

theorem encInt_bytes (i : Int) : ∀ b ∈ encInt i, b < 256 := by
  intro b hb
  unfold encInt at hb
  rcases List.mem_cons.mp hb with h | h
  · subst h
    split <;> omega
  · exact encNat_bytes _ b h

theorem encChars_bytes (cs : List Char) : ∀ b ∈ encChars cs, b < 256 := by
  induction cs with
  | nil => simp [encChars]
  | cons c cs ih =>
    intro b hb
    rcases List.mem_append.mp hb with h | h
    · exact encNat_bytes _ b h
    · exact ih b h

theorem encStr_bytes (s : String) : ∀ b ∈ encStr s, b < 256 := by
  intro b hb
  rcases List.mem_append.mp hb with h | h
  · exact encNat_bytes _ b h
  · exact encChars_bytes _ b h

theorem encStrs_bytes (l : List String) : ∀ b ∈ encStrs l, b < 256 := by
  induction l with
  | nil => simp [encStrs]
  | cons x xs ih =>
    intro b hb
    rcases List.mem_append.mp hb with h | h
    · exact encStr_bytes _ b h
    · exact ih b h

theorem encStrList_bytes (l : List String) : ∀ b ∈ encStrList l, b < 256 := by
  intro b hb
  rcases List.mem_append.mp hb with h | h
  · exact encNat_bytes _ b h
  · exact encStrs_bytes _ b h

theorem encReqBytes_bytes (q : execReq) : ∀ b ∈ encReqBytes q, b < 256 := by
  intro b hb
  unfold encReqBytes at hb
  simp only [List.append_assoc, List.mem_append] at hb
  rcases hb with h | h | h | h | h | h
  · exact encInt_bytes _ b h
  · exact encInt_bytes _ b h
  · exact encStr_bytes _ b h
  · exact encStrList_bytes _ b h
  · exact encStrList_bytes _ b h
  · exact encStr_bytes _ b h

/-! base64 round trip -/

theorem b64v_b64c : ∀ i < 64, b64v (b64c i) = some i := by decide

theorem b64c_ne_pad : ∀ i < 64, b64c i ≠ '=' := by decide

theorem b64_roundtrip : ∀ bs : List Nat, (∀ b ∈ bs, b < 256) →
    b64dec (b64enc bs) = some bs := by
  intro bs
  induction bs using b64enc.induct with
  | case1 =>
    intro _
    rfl
  | case2 b1 =>
    intro hb
    have h1 : b1 < 256 := hb b1 (by simp)
    rw [b64enc, b64dec]
    rw [b64v_b64c _ (by omega), b64v_b64c _ (by omega)]
    simp
    all_goals omega
  | case3 b1 b2 =>
    intro hb
    have h1 : b1 < 256 := hb b1 (by simp)
    have h2 : b2 < 256 := hb b2 (by simp)
    have hne3 : b64c (b2 % 16 * 4) ≠ '=' := b64c_ne_pad _ (by omega)
    rw [b64enc, b64dec]
    rw [b64v_b64c _ (by omega), b64v_b64c _ (by omega), b64v_b64c _ (by omega)]
    simp [hne3]
    all_goals omega
  | case4 b1 b2 b3 rest ih =>
    intro hb
    have h1 : b1 < 256 := hb b1 (by simp)
    have h2 : b2 < 256 := hb b2 (by simp)
    have h3 : b3 < 256 := hb b3 (by simp)
    have hrest : ∀ b ∈ rest, b < 256 := fun b h => hb b (by simp [h])
    have hne3 : b64c (b2 % 16 * 4 + b3 / 64) ≠ '=' := b64c_ne_pad _ (by omega)
    have hne4 : b64c (b3 % 64) ≠ '=' := b64c_ne_pad _ (by omega)
    rw [b64enc, b64dec]
    rw [b64v_b64c _ (by omega), b64v_b64c _ (by omega), b64v_b64c _ (by omega),
      b64v_b64c _ (by omega)]
    simp [hne3, hne4, ih hrest]
    all_goals omega

/-- C3: the gob-over-base64 round trip used by `execReq.start` and
`maybeExec` reproduces the identical request — same uid, gid, path, argv
(element-for-element), env and dir. -/
theorem C3_execReq_roundtrip (q : execReq) :
    decodeExecReq (encodeExecReq q) = some q := by
  unfold encodeExecReq decodeExecReq
  have htl : (String.mk (b64enc (encReqBytes q))).toList = b64enc (encReqBytes q) := rfl
  have hdec : decReqBytes (encReqBytes q) = some (q, []) := by
    simpa using decReq_encReq q []
  rw [htl, b64_roundtrip _ (encReqBytes_bytes q)]
  simp [hdec]

/-! ## C5: errors in Start's steps -/

/-- C5 (code bug): `uml.Start` discards `writeInterfaceConfig()`'s return
value.  At the failing input — the first temp-dir creation (inside
`writeInterfaceConfig`) fails, every later operation succeeds — `Start`
returns no error, performs no cleanup (no tap `Close`), and spawns the VM
anyway with an empty-valued `hostfs=` argument, contradicting the claim
that any failure among Start's steps is cleaned up and returned as an
error. -/
theorem C5_start_ignores_writeInterfaceConfig_error :
    (uml.Start inst0 cfgNoDrives sysWicFail).1 = none ∧
    Ev.tempDirFail ∈ (uml.Start inst0 cfgNoDrives sysWicFail).2.2.2.events ∧
    Ev.tapClose ∉ (uml.Start inst0 cfgNoDrives sysWicFail).2.2.2.events ∧
    ("hostfs=" : String) ∈ (uml.Start inst0 cfgNoDrives sysWicFail).2.2.1.Args ∧
    ((uml.Start inst0 cfgNoDrives sysWicFail).2.1.cmd).isSome = true := by
  decide

/-! ## C7: backend-A argv in the single-TempCOW-drive scenario -/

theorem tmpName_cow_ne (n : Nat) : tmpName n ++ "/fs.cow1" ≠ "rootfs.img" := by
  intro h
  have hl := congrArg String.length h
  rw [String.length_append, tmpName, String.length_append] at hl
  have h1 : ("/tmp/flynn" : String).length = 10 := rfl
  have h2 : ("/fs.cow1" : String).length = 8 := rfl
  have h3 : ("rootfs.img" : String).length = 10 := rfl
  rw [h1, h2, h3] at hl
  omega

theorem ubd_arg_eq (s : String) :
    "ubd" ++ Nat.repr 0 ++ "=" ++ s ++ "," ++ "rootfs.img" =
      "ubd0=" ++ s ++ ",rootfs.img" := by
  have h1 : ("ubd" ++ Nat.repr 0 ++ "=" : String) = "ubd0=" := rfl
  have h2 : ("," ++ "rootfs.img" : String) = ",rootfs.img" := rfl
  rw [h1, String.append_assoc ("ubd0=" ++ s) "," "rootfs.img", h2]

/-- Full symbolic evaluation of `uml.Start` on the C7 scenario. -/
theorem uml_start_C7_eval (t ip : String) (k : Nat) (usr grp : Int)
    (args0 : List String) (outw : Option String) :
    uml.Start (instWithTap t ip) (cfgC7 usr grp args0 outw) (sysAt k) =
      (none,
       {ID := "flynn0", tap := some {Name := t, RemoteIP := ip},
        cmd := some {Process := some {alive := true}},
        tempFiles := [tmpName k, tmpName (k + 1)]},
       {Path := "linux", User := usr, Group := grp, Memory := "512MB",
        Drives := [{FS := "rootfs.img", COW := "", TempCOW := true}],
        Args := args0 ++
          ["umid=flynn0", "con0=fd:0,fd:1", "con=pts", "rw",
           "eth0=tuntap," ++ t, "hostfs=" ++ tmpName k] ++
          ["mem=512MB"] ++
          ["ubd" ++ Nat.repr 0 ++ "=" ++ (tmpName (k + 1) ++ "/fs.cow1") ++
            "," ++ "rootfs.img"],
        Out := outw, hostFS := tmpName k},
       {tmpCounter := k + 2, tempDirOK := [], chmodOK := true, createOK := true,
        ifaceOK := true, chownOK := [], toolQ := [], spawnOK := true,
        home := "/root",
        events := [Ev.tempDirMade (tmpName k), Ev.chmodCall (tmpName k),
          Ev.createCall (tmpName k ++ "/eth0"), Ev.ifaceWrite,
          Ev.tempDirMade (tmpName (k + 1)), Ev.chownCall (tmpName (k + 1)),
          Ev.spawn "linux"
            ("linux" :: (args0 ++
              ["umid=flynn0", "con0=fd:0,fd:1", "con=pts", "rw",
               "eth0=tuntap," ++ t, "hostfs=" ++ tmpName k] ++
              ["mem=512MB"] ++
              ["ubd" ++ Nat.repr 0 ++ "=" ++ (tmpName (k + 1) ++ "/fs.cow1") ++
                "," ++ "rootfs.img"]))
            ["HOME=/root"]]}) := rfl

/-- C7: on backend A, `Start()` with the single drive
`{FS := "rootfs.img", TempCOW := true}` and memory `"512MB"` (all underlying
temp-dir/chown/spawn operations succeeding) spawns a hypervisor argv that
contains `mem=512MB`, `ubd0=<tmp-cow-path>,rootfs.img` with the fresh
overlay path distinct from `rootfs.img`, and `eth0=tuntap,<tap-name>`. -/
theorem C7_uml_start_argv (t ip : String) (k : Nat) (usr grp : Int)
    (args0 : List String) (outw : Option String) :
    (uml.Start (instWithTap t ip) (cfgC7 usr grp args0 outw) (sysAt k)).1 = none ∧
    Ev.spawn "linux"
        ("linux" :: (args0 ++
          ["umid=flynn0", "con0=fd:0,fd:1", "con=pts", "rw",
           "eth0=tuntap," ++ t, "hostfs=" ++ tmpName k] ++
          ["mem=512MB"] ++
          ["ubd0=" ++ (tmpName (k + 1) ++ "/fs.cow1") ++ ",rootfs.img"]))
        ["HOME=/root"]
      ∈ (uml.Start (instWithTap t ip) (cfgC7 usr grp args0 outw) (sysAt k)).2.2.2.events ∧
    "mem=512MB"
      ∈ (uml.Start (instWithTap t ip) (cfgC7 usr grp args0 outw) (sysAt k)).2.2.1.Args ∧
    ("ubd0=" ++ (tmpName (k + 1) ++ "/fs.cow1") ++ ",rootfs.img")
      ∈ (uml.Start (instWithTap t ip) (cfgC7 usr grp args0 outw) (sysAt k)).2.2.1.Args ∧
    ("eth0=tuntap," ++ t)
      ∈ (uml.Start (instWithTap t ip) (cfgC7 usr grp args0 outw) (sysAt k)).2.2.1.Args ∧
    Ev.tempDirMade (tmpName (k + 1))
      ∈ (uml.Start (instWithTap t ip) (cfgC7 usr grp args0 outw) (sysAt k)).2.2.2.events ∧
    tmpName (k + 1) ++ "/fs.cow1" ≠ "rootfs.img" := by
  rw [uml_start_C7_eval, ubd_arg_eq]
  refine ⟨rfl, by simp, by simp, by simp, by simp, by simp, tmpName_cow_ne (k + 1)⟩

/-! ## C10: Start mutates the shared config -/

theorem umlStartDrives_ok (ds : List UMLDrive) (i : Nat) (u : uml) (c : UMLConfig)
    (s : Sys) (h1 : s.tempDirOK = []) (h2 : s.chownOK = []) :
    (umlStartDrives ds i u c s).1 = none ∧
    (∃ ex, (umlStartDrives ds i u c s).2.2.1 = {c with Args := c.Args ++ ex}) ∧
    (∃ fs, (umlStartDrives ds i u c s).2.1 = {u with tempFiles := u.tempFiles ++ fs}) ∧
    (∃ n evs, (umlStartDrives ds i u c s).2.2.2 =
      {s with tmpCounter := n, events := evs}) := by
  induction ds generalizing i u c s with
  | nil =>
    exact ⟨rfl, ⟨[], by simp [umlStartDrives]⟩, ⟨[], by simp [umlStartDrives]⟩,
      ⟨s.tmpCounter, s.events, by simp [umlStartDrives]⟩⟩
  | cons d rest ih =>
    by_cases hT : d.TempCOW = true
    · have hstep : umlStartDrives (d :: rest) i u c s =
          umlStartDrives rest (i + 1)
            {u with tempFiles := u.tempFiles ++ [tmpName s.tmpCounter]}
            {c with Args := c.Args ++
              ["ubd" ++ Nat.repr i ++ "=" ++ (tmpName s.tmpCounter ++ "/fs.cow1") ++
                "," ++ d.FS]}
            {s with
              tmpCounter := s.tmpCounter + 1
              events := s.events ++ [Ev.tempDirMade (tmpName s.tmpCounter),
                Ev.chownCall (tmpName s.tmpCounter)]} := by
        simp [umlStartDrives, hT, uml.tempCOW, Sys.tempDir, Sys.chown, Sys.log, h1, h2]
      rw [hstep]
      obtain ⟨g1, ⟨ex, hex⟩, ⟨fs, hfs⟩, ⟨n, evs, hsys⟩⟩ :=
        ih (i + 1) {u with tempFiles := u.tempFiles ++ [tmpName s.tmpCounter]}
          {c with Args := c.Args ++
            ["ubd" ++ Nat.repr i ++ "=" ++ (tmpName s.tmpCounter ++ "/fs.cow1") ++
              "," ++ d.FS]}
          {s with
            tmpCounter := s.tmpCounter + 1
            events := s.events ++ [Ev.tempDirMade (tmpName s.tmpCounter),
              Ev.chownCall (tmpName s.tmpCounter)]}
          h1 h2
      refine ⟨g1,
        ⟨("ubd" ++ Nat.repr i ++ "=" ++ (tmpName s.tmpCounter ++ "/fs.cow1") ++
            "," ++ d.FS) :: ex, ?_⟩,
        ⟨tmpName s.tmpCounter :: fs, ?_⟩, ⟨n, evs, ?_⟩⟩
      · rw [hex]
        simp
      · rw [hfs]
        simp
      · rw [hsys]
    · by_cases hC : d.COW = ""
      · have hstep : umlStartDrives (d :: rest) i u c s =
            umlStartDrives rest (i + 1) u
              {c with Args := c.Args ++ ["ubd" ++ Nat.repr i ++ "=" ++ d.FS]} s := by
          simp [umlStartDrives, hT, hC]
        rw [hstep]
        obtain ⟨g1, ⟨ex, hex⟩, ⟨fs, hfs⟩, ⟨n, evs, hsys⟩⟩ :=
          ih (i + 1) u
            {c with Args := c.Args ++ ["ubd" ++ Nat.repr i ++ "=" ++ d.FS]} s h1 h2
        refine ⟨g1, ⟨("ubd" ++ Nat.repr i ++ "=" ++ d.FS) :: ex, ?_⟩,
          ⟨fs, hfs⟩, ⟨n, evs, hsys⟩⟩
        rw [hex]
        simp
      · have hstep : umlStartDrives (d :: rest) i u c s =
            umlStartDrives rest (i + 1) u
              {c with Args := c.Args ++
                ["ubd" ++ Nat.repr i ++ "=" ++ d.COW ++ "," ++ d.FS]} s := by
          simp [umlStartDrives, hT, hC]
        rw [hstep]
        obtain ⟨g1, ⟨ex, hex⟩, ⟨fs, hfs⟩, ⟨n, evs, hsys⟩⟩ :=
          ih (i + 1) u
            {c with Args := c.Args ++
              ["ubd" ++ Nat.repr i ++ "=" ++ d.COW ++ "," ++ d.FS]} s h1 h2
        refine ⟨g1, ⟨("ubd" ++ Nat.repr i ++ "=" ++ d.COW ++ "," ++ d.FS) :: ex, ?_⟩,
          ⟨fs, hfs⟩, ⟨n, evs, hsys⟩⟩
        rw [hex]
        simp

theorem uml_wic_ok (u : uml) (c : UMLConfig) (s : Sys)
    (h1 : s.tempDirOK = []) (hm : s.chmodOK = true) (hc : s.createOK = true)
    (hif : s.ifaceOK = true) :
    uml.writeInterfaceConfig u c s =
      (none, {u with tempFiles := u.tempFiles ++ [tmpName s.tmpCounter]},
       {c with hostFS := tmpName s.tmpCounter},
       {s with
         tmpCounter := s.tmpCounter + 1
         events := s.events ++ [Ev.tempDirMade (tmpName s.tmpCounter),
           Ev.chmodCall (tmpName s.tmpCounter),
           Ev.createCall (tmpName s.tmpCounter ++ "/eth0"), Ev.ifaceWrite]}) := by
  simp [uml.writeInterfaceConfig, Sys.tempDir, Sys.log, h1, hm, hc, hif]

/-- `uml.Start` under an all-success oracle: no error; the *shared* config's
`Args` now carries the whole backend-flag block (followed by the per-drive
arguments); instance identity/tap and the config's `Memory`/`Drives` are
unchanged; the oracle stays all-success. -/
theorem umlStart_ok (u : uml) (c : UMLConfig) (s : Sys)
    (h1 : s.tempDirOK = []) (h2 : s.chownOK = []) (hm : s.chmodOK = true)
    (hc : s.createOK = true) (hif : s.ifaceOK = true) (hsp : s.spawnOK = true) :
    (uml.Start u c s).1 = none ∧
    (∃ ex, (uml.Start u c s).2.2.1.Args =
      c.Args ++ umlBackendFlags u.ID (uml.tapName u) (tmpName s.tmpCounter) c.Memory
        ++ ex) ∧
    (uml.Start u c s).2.1.ID = u.ID ∧
    (uml.Start u c s).2.1.tap = u.tap ∧
    (uml.Start u c s).2.2.1.Memory = c.Memory ∧
    (uml.Start u c s).2.2.2.tempDirOK = [] ∧
    (uml.Start u c s).2.2.2.chownOK = [] ∧
    (uml.Start u c s).2.2.2.chmodOK = true ∧
    (uml.Start u c s).2.2.2.createOK = true ∧
    (uml.Start u c s).2.2.2.ifaceOK = true ∧
    (uml.Start u c s).2.2.2.spawnOK = true := by
  have htap : uml.tapName {u with tempFiles := u.tempFiles ++ [tmpName s.tmpCounter]} =
      uml.tapName u := rfl
  by_cases hM : c.Memory = ""
  · simp only [uml.Start, uml_wic_ok u c s h1 hm hc hif, htap]
    rw [if_neg (by simp [hM])]
    obtain ⟨g1, ⟨ex, hex⟩, ⟨fs2, hfs⟩, ⟨n, evs, hsys⟩⟩ :=
      umlStartDrives_ok c.Drives 0
        {u with tempFiles := u.tempFiles ++ [tmpName s.tmpCounter]}
        {c with
          hostFS := tmpName s.tmpCounter
          Args := c.Args ++ ["umid=" ++ u.ID, "con0=fd:0,fd:1", "con=pts", "rw",
            "eth0=tuntap," ++ uml.tapName u, "hostfs=" ++ tmpName s.tmpCounter]}
        {s with
          tmpCounter := s.tmpCounter + 1
          events := s.events ++ [Ev.tempDirMade (tmpName s.tmpCounter),
            Ev.chmodCall (tmpName s.tmpCounter),
            Ev.createCall (tmpName s.tmpCounter ++ "/eth0"), Ev.ifaceWrite]}
        h1 h2
    rw [g1, hex, hfs, hsys]
    simp only [Sys.spawn, hsp, if_true]
    refine ⟨?_, ⟨ex, ?_⟩, ?_, ?_, ?_, ?_, ?_, ?_, ?_, ?_, ?_⟩ <;>
      simp [umlBackendFlags, hM, Sys.log, h1, h2, hm, hc, hif, hsp]
  · simp only [uml.Start, uml_wic_ok u c s h1 hm hc hif, htap]
    rw [if_pos (by simp [hM])]
    obtain ⟨g1, ⟨ex, hex⟩, ⟨fs2, hfs⟩, ⟨n, evs, hsys⟩⟩ :=
      umlStartDrives_ok c.Drives 0
        {u with tempFiles := u.tempFiles ++ [tmpName s.tmpCounter]}
        {c with
          hostFS := tmpName s.tmpCounter
          Args := (c.Args ++ ["umid=" ++ u.ID, "con0=fd:0,fd:1", "con=pts", "rw",
            "eth0=tuntap," ++ uml.tapName u, "hostfs=" ++ tmpName s.tmpCounter]) ++
            ["mem=" ++ c.Memory]}
        {s with
          tmpCounter := s.tmpCounter + 1
          events := s.events ++ [Ev.tempDirMade (tmpName s.tmpCounter),
            Ev.chmodCall (tmpName s.tmpCounter),
            Ev.createCall (tmpName s.tmpCounter ++ "/eth0"), Ev.ifaceWrite]}
        h1 h2
    rw [g1, hex, hfs, hsys]
    simp only [Sys.spawn, hsp, if_true]
    refine ⟨?_, ⟨ex, ?_⟩, ?_, ?_, ?_, ?_, ?_, ?_, ?_, ?_, ?_⟩ <;>
      simp [umlBackendFlags, hM, Sys.log, h1, h2, hm, hc, hif, hsp]

/-- C10: the backend flags `Start` assembles are appended in place to the
`Args` of the config record the instance shares (by embedded pointer) with
the caller — after `Start` returns, the caller's config carries the whole
flag block; and a second `Start` on the same instance and config appends
every backend flag again, duplicating the block in the final argv.  `Start`
is therefore not repeatable on the same config. -/
theorem C10_start_mutates_shared_config (u : uml) (c : UMLConfig) (s : Sys)
    (h1 : s.tempDirOK = []) (h2 : s.chownOK = []) (hm : s.chmodOK = true)
    (hc : s.createOK = true) (hif : s.ifaceOK = true) (hsp : s.spawnOK = true) :
    (∃ ex1, (uml.Start u c s).2.2.1.Args =
      c.Args ++ umlBackendFlags u.ID (uml.tapName u) (tmpName s.tmpCounter) c.Memory
        ++ ex1) ∧
    (∃ host2 ex1 ex2,
      (uml.Start (uml.Start u c s).2.1 (uml.Start u c s).2.2.1
          (uml.Start u c s).2.2.2).2.2.1.Args =
        c.Args ++ umlBackendFlags u.ID (uml.tapName u) (tmpName s.tmpCounter) c.Memory
          ++ ex1 ++ umlBackendFlags u.ID (uml.tapName u) host2 c.Memory ++ ex2) := by
  obtain ⟨-, ⟨ex1, hex1⟩, hID, htp, hMem, t1, t2, t3, t4, t5, t6⟩ :=
    umlStart_ok u c s h1 h2 hm hc hif hsp
  refine ⟨⟨ex1, hex1⟩, ?_⟩
  obtain ⟨-, ⟨ex2, hex2⟩, -, -, -, -, -, -, -, -, -⟩ :=
    umlStart_ok (uml.Start u c s).2.1 (uml.Start u c s).2.2.1 (uml.Start u c s).2.2.2
      t1 t2 t3 t4 t5 t6
  have htap2 : uml.tapName (uml.Start u c s).2.1 = uml.tapName u := by
    unfold uml.tapName
    rw [htp]
  refine ⟨tmpName (uml.Start u c s).2.2.2.tmpCounter, ex1, ex2, ?_⟩
  rw [hex2, hex1, hID, htap2, hMem]

/-- Witness for C10 at the concrete fixture (`inst0`, `cfg0`, `sys0`). -/
theorem C10_start_mutates_witness :
    (∃ ex1, (uml.Start inst0 cfg0 sys0).2.2.1.Args =
      cfg0.Args ++
        umlBackendFlags inst0.ID (uml.tapName inst0) (tmpName sys0.tmpCounter)
          cfg0.Memory ++ ex1) ∧
    (∃ host2 ex1 ex2,
      (uml.Start (uml.Start inst0 cfg0 sys0).2.1 (uml.Start inst0 cfg0 sys0).2.2.1
          (uml.Start inst0 cfg0 sys0).2.2.2).2.2.1.Args =
        cfg0.Args ++
          umlBackendFlags inst0.ID (uml.tapName inst0) (tmpName sys0.tmpCounter)
            cfg0.Memory ++ ex1 ++
          umlBackendFlags inst0.ID (uml.tapName inst0) host2 cfg0.Memory ++ ex2) :=
  C10_start_mutates_shared_config inst0 cfg0 sys0 rfl rfl rfl rfl rfl rfl

/-! ## C8: backend-B drive flags -/

theorem tmpName_img_ne (n : Nat) : tmpName n ++ "/fs.img" ≠ "rootfs.img" := by
  intro h
  have hl := congrArg String.length h
  rw [String.length_append, tmpName, String.length_append] at hl
  have h1 : ("/tmp/flynn" : String).length = 10 := rfl
  have h2 : ("/fs.img" : String).length = 7 := rfl
  have h3 : ("rootfs.img" : String).length = 10 := rfl
  rw [h1, h2, h3] at hl
  omega

/-- Events of `vm.Start` in the C8 scenario, `hda` iterated first. -/
theorem vm_C8_events_hda_first (t ip : String) (k : Nat) (usr grp : Int)
    (args0 : List String) (outw : Option String) :
    (vm.Start (vmWithTap t ip)
        (cfgC8 [("hda", hdaDrive), ("hdb", hdbDrive)] args0 usr grp outw)
        (sysAt k)).2.2.2.events =
      [Ev.tempDirMade (tmpName k), Ev.chmodCall (tmpName k),
       Ev.createCall (tmpName k ++ "/eth0"), Ev.ifaceWrite,
       Ev.tempDirMade (tmpName (k + 1)), Ev.chownCall (tmpName (k + 1)),
       Ev.runTool ["qemu-img", "create", "-f", "qcow2", "-b", "rootfs.img",
         tmpName (k + 1) ++ "/fs.img"],
       Ev.chownCall (tmpName (k + 1) ++ "/fs.img"),
       Ev.spawn "/usr/bin/qemu-system-x86_64"
         ("/usr/bin/qemu-system-x86_64" ::
           (args0 ++ vmFixedFlags t (tmpName k) ++ ["-m", "512"] ++
             ["-hda", tmpName (k + 1) ++ "/fs.img"] ++ ["-hdb", "data.img"]))
         ["HOME=/root"]] := rfl

/-- Events of `vm.Start` in the C8 scenario, `hdb` iterated first. -/
theorem vm_C8_events_hdb_first (t ip : String) (k : Nat) (usr grp : Int)
    (args0 : List String) (outw : Option String) :
    (vm.Start (vmWithTap t ip)
        (cfgC8 [("hdb", hdbDrive), ("hda", hdaDrive)] args0 usr grp outw)
        (sysAt k)).2.2.2.events =
      [Ev.tempDirMade (tmpName k), Ev.chmodCall (tmpName k),
       Ev.createCall (tmpName k ++ "/eth0"), Ev.ifaceWrite,
       Ev.tempDirMade (tmpName (k + 1)), Ev.chownCall (tmpName (k + 1)),
       Ev.runTool ["qemu-img", "create", "-f", "qcow2", "-b", "rootfs.img",
         tmpName (k + 1) ++ "/fs.img"],
       Ev.chownCall (tmpName (k + 1) ++ "/fs.img"),
       Ev.spawn "/usr/bin/qemu-system-x86_64"
         ("/usr/bin/qemu-system-x86_64" ::
           (args0 ++ vmFixedFlags t (tmpName k) ++ ["-m", "512"] ++
             ["-hdb", "data.img"] ++ ["-hda", tmpName (k + 1) ++ "/fs.img"]))
         ["HOME=/root"]] := rfl

/-- C8: on backend B with drives `{hda: {FS:"rootfs.img",TempCOW:true},
hdb: {FS:"data.img"}}` (in either map-iteration order, all overlay/spawn
operations succeeding), the spawned argv contains the adjacent pair
`-hda <generated-qcow2-path>` — the path freshly produced by
`qemu-img create -f qcow2`, distinct from `rootfs.img` — and the adjacent
pair `-hdb data.img`. -/
theorem C8_vm_start_drive_flags (t ip : String) (k : Nat) (usr grp : Int)
    (args0 : List String) (outw : Option String)
    (drives : List (String × VMDrive))
    (hd : drives = [("hda", hdaDrive), ("hdb", hdbDrive)] ∨
          drives = [("hdb", hdbDrive), ("hda", hdaDrive)]) :
    (vm.Start (vmWithTap t ip) (cfgC8 drives args0 usr grp outw) (sysAt k)).1 = none ∧
    ∃ argv,
      Ev.spawn "/usr/bin/qemu-system-x86_64" argv ["HOME=/root"]
        ∈ (vm.Start (vmWithTap t ip) (cfgC8 drives args0 usr grp outw)
            (sysAt k)).2.2.2.events ∧
      pairIn "-hda" (tmpName (k + 1) ++ "/fs.img") argv ∧
      pairIn "-hdb" "data.img" argv ∧
      Ev.runTool ["qemu-img", "create", "-f", "qcow2", "-b", "rootfs.img",
          tmpName (k + 1) ++ "/fs.img"]
        ∈ (vm.Start (vmWithTap t ip) (cfgC8 drives args0 usr grp outw)
            (sysAt k)).2.2.2.events ∧
      tmpName (k + 1) ++ "/fs.img" ≠ "rootfs.img" := by
  rcases hd with h | h <;> subst h
  · refine ⟨rfl,
      "/usr/bin/qemu-system-x86_64" ::
        (args0 ++ vmFixedFlags t (tmpName k) ++ ["-m", "512"] ++
          ["-hda", tmpName (k + 1) ++ "/fs.img"] ++ ["-hdb", "data.img"]),
      ?_, ?_, ?_, ?_, tmpName_img_ne (k + 1)⟩
    · rw [vm_C8_events_hda_first]
      simp
    · exact ⟨"/usr/bin/qemu-system-x86_64" ::
        (args0 ++ vmFixedFlags t (tmpName k) ++ ["-m", "512"]),
        ["-hdb", "data.img"], by simp⟩
    · exact ⟨"/usr/bin/qemu-system-x86_64" ::
        (args0 ++ vmFixedFlags t (tmpName k) ++ ["-m", "512"] ++
          ["-hda", tmpName (k + 1) ++ "/fs.img"]),
        [], by simp⟩
    · rw [vm_C8_events_hda_first]
      simp
  · refine ⟨rfl,
      "/usr/bin/qemu-system-x86_64" ::
        (args0 ++ vmFixedFlags t (tmpName k) ++ ["-m", "512"] ++
          ["-hdb", "data.img"] ++ ["-hda", tmpName (k + 1) ++ "/fs.img"]),
      ?_, ?_, ?_, ?_, tmpName_img_ne (k + 1)⟩
    · rw [vm_C8_events_hdb_first]
      simp
    · exact ⟨"/usr/bin/qemu-system-x86_64" ::
        (args0 ++ vmFixedFlags t (tmpName k) ++ ["-m", "512"] ++
          ["-hdb", "data.img"]),
        [], by simp⟩
    · exact ⟨"/usr/bin/qemu-system-x86_64" ::
        (args0 ++ vmFixedFlags t (tmpName k) ++ ["-m", "512"]),
        ["-hda", tmpName (k + 1) ++ "/fs.img"], by simp⟩
    · rw [vm_C8_events_hdb_first]
      simp

/-- Witness for C8 at a concrete drive order. -/
theorem C8_vm_start_witness :
    (vm.Start (vmWithTap "flynntap0" "192.168.0.2")
        (cfgC8 [("hda", hdaDrive), ("hdb", hdbDrive)] [] 1000 1000 (some "w"))
        (sysAt 0)).1 = none ∧
    ∃ argv,
      Ev.spawn "/usr/bin/qemu-system-x86_64" argv ["HOME=/root"]
        ∈ (vm.Start (vmWithTap "flynntap0" "192.168.0.2")
            (cfgC8 [("hda", hdaDrive), ("hdb", hdbDrive)] [] 1000 1000 (some "w"))
            (sysAt 0)).2.2.2.events ∧
      pairIn "-hda" (tmpName 1 ++ "/fs.img") argv ∧
      pairIn "-hdb" "data.img" argv ∧
      Ev.runTool ["qemu-img", "create", "-f", "qcow2", "-b", "rootfs.img",
          tmpName 1 ++ "/fs.img"]
        ∈ (vm.Start (vmWithTap "flynntap0" "192.168.0.2")
            (cfgC8 [("hda", hdaDrive), ("hdb", hdbDrive)] [] 1000 1000 (some "w"))
            (sysAt 0)).2.2.2.events ∧
      tmpName 1 ++ "/fs.img" ≠ "rootfs.img" :=
  C8_vm_start_drive_flags "flynntap0" "192.168.0.2" 0 1000 1000 [] (some "w")
    [("hda", hdaDrive), ("hdb", hdbDrive)] (Or.inl rfl)

/-! ## C9: overlay-creation error paths -/

/-- C9 counterexample.  The claim says a non-zero tool exit is surfaced with
the tool's combined output attached; `vm.tempCOW` uses `cmd.Run()` and wraps
only `err.Error()` (`"failed to create COW filesystem: %s"`), so the
returned error does not contain the tool's output. -/
theorem C9_error_lacks_tool_output :
    (vm.tempCOW (vmWithTap "flynntap0" "192.168.0.2") "rootfs.img" sysToolFail).1 =
      Except.error "failed to create COW filesystem: exit status 1" ∧
    strContains "failed to create COW filesystem: exit status 1"
      "qemu-img: cannot create overlay: boom" = false := by
  exact ⟨rfl, by decide⟩

/-- C9 amended: (a) a temp-dir failure and (b) a chown failure abort overlay
creation with an error *before* the external tool is invoked (the event
trace gains no `runTool`), and (c) a non-zero tool exit is surfaced as
`failed to create COW filesystem: <exit error>` — wrapping only the exit
error, without the combined output. -/
theorem C9_tempCOW_error_paths (u : vm) (image : String) (s : Sys) :
    (s.tempDirOK.headD true = false →
      (∃ e, (vm.tempCOW u image s).1 = Except.error e) ∧
      (vm.tempCOW u image s).2.2.events = s.events ++ [Ev.tempDirFail]) ∧
    (s.tempDirOK.headD true = true → s.chownOK.headD true = false →
      (∃ e, (vm.tempCOW u image s).1 = Except.error e) ∧
      (vm.tempCOW u image s).2.2.events = s.events ++
        [Ev.tempDirMade (tmpName s.tmpCounter),
         Ev.chownCall (tmpName s.tmpCounter)]) ∧
    (∀ em out, s.tempDirOK.headD true = true → s.chownOK.headD true = true →
      s.toolQ.headD {exitErr := none, output := ""} =
        {exitErr := some em, output := out} →
      (vm.tempCOW u image s).1 =
        Except.error ("failed to create COW filesystem: " ++ em) ∧
      Ev.runTool ["qemu-img", "create", "-f", "qcow2", "-b", image,
          tmpName s.tmpCounter ++ "/fs.img"]
        ∈ (vm.tempCOW u image s).2.2.events) := by
  refine ⟨?_, ?_, ?_⟩
  · intro hq
    rw [List.headD_eq_head?] at hq
    simp [vm.tempCOW, Sys.tempDir, Sys.log, hq]
  · intro hq hcw
    rw [List.headD_eq_head?] at hq hcw
    simp [vm.tempCOW, Sys.tempDir, Sys.chown, Sys.log, hq, hcw]
  · intro em out hq hcw htool
    rw [List.headD_eq_head?] at hq hcw htool
    simp [vm.tempCOW, Sys.tempDir, Sys.chown, Sys.runTool, Sys.log, hq, hcw, htool]

/-- Witness for the C9 amended theorem: the tool-failure leg at the concrete
`sysToolFail` oracle. -/
theorem C9_tempCOW_paths_witness :
    (vm.tempCOW (vmWithTap "flynntap0" "192.168.0.2") "rootfs.img" sysToolFail).1 =
      Except.error ("failed to create COW filesystem: " ++ "exit status 1") ∧
    Ev.runTool ["qemu-img", "create", "-f", "qcow2", "-b", "rootfs.img",
        tmpName 0 ++ "/fs.img"]
      ∈ (vm.tempCOW (vmWithTap "flynntap0" "192.168.0.2") "rootfs.img"
          sysToolFail).2.2.events :=
  (C9_tempCOW_error_paths (vmWithTap "flynntap0" "192.168.0.2") "rootfs.img"
      sysToolFail).2.2
    "exit status 1" "qemu-img: cannot create overlay: boom" rfl rfl rfl

end FlynnTest
